import Mathlib

/-!
Verification of the 365tunebot chat controller
(src/react-chart-app/src/components/ChatBot.js).

Queries and field values are modelled as `List Char`; JS `toLowerCase`
is `Char.toLower` mapped over the list, and JS `String.includes` is an
explicit substring test.  Timer-driven code (TypewriterText,
AnimatedTable, the brief-show auto-close `setTimeout`) is modelled as
explicit tick-indexed state machines.
-/

namespace TuneBot

/-- JS `toLowerCase`, character-wise. -/
def lowerAll (s : List Char) : List Char := s.map Char.toLower

/-- `needle` is a prefix of `hay`. -/
def startsWithSub : List Char → List Char → Bool
  | _, [] => true
  | [], _ :: _ => false
  | h :: hs, n :: ns => n == h && startsWithSub hs ns

/-- JS `hay.includes(needle)`: `needle` occurs contiguously in `hay`. -/
def listContains (hay needle : List Char) : Bool :=
  match hay with
  | [] => needle.isEmpty
  | _ :: hs => startsWithSub hay needle || listContains hs needle

/-- Sidebar behavior categories returned by `classifyQuery`. -/
inductive SidebarBehavior where
  | noSidebar
  | briefShow
  | showSidebar
  | autoDecide
deriving DecidableEq

/-- Phrases that suppress the sidebar (simple counts, yes/no answers). -/
def simpleQueries : List (List Char) :=
  [("how many").toList, ("count of").toList, ("total number").toList,
   ("do we have").toList, ("is there").toList, ("are there").toList,
   ("what is the count").toList, ("how much total").toList,
   ("what percentage").toList]

/-- Phrases that show the sidebar briefly, then auto-close it. -/
def briefShowQueries : List (List Char) :=
  [("who is").toList, ("which department has the most").toList,
   ("which country has the most").toList, ("top department").toList,
   ("highest").toList, ("lowest").toList, ("most expensive").toList,
   ("cheapest").toList]

/-- Phrases that always show the sidebar (detailed lists, analysis). -/
def detailedQueries : List (List Char) :=
  [("show me").toList, ("list").toList, ("display").toList,
   ("find users").toList, ("breakdown").toList, ("analysis").toList,
   ("by department").toList, ("by country").toList, ("activity").toList,
   ("trends").toList, ("details").toList]

/-- `phrases.some(p => query.includes(p))`. -/
def phraseMatch (query : List Char) (phrases : List (List Char)) : Bool :=
  phrases.any (fun p => listContains query p)

/-- `classifyQuery` from ChatBot.js: lower-case the query, then test the
three phrase sets in order, first match wins, else `auto-decide`. -/
def classifyQuery (userQuery : List Char) : SidebarBehavior :=
  let query := lowerAll userQuery
  if phraseMatch query simpleQueries then .noSidebar
  else if phraseMatch query briefShowQueries then .briefShow
  else if phraseMatch query detailedQueries then .showSidebar
  else .autoDecide

/-- Keywords that force artifact mode. -/
def artifactKeywords : List (List Char) :=
  [("export").toList, ("download").toList, ("csv").toList,
   ("excel").toList, ("report").toList, ("full list").toList,
   ("complete data").toList]

/-- `shouldShowArtifact` from ChatBot.js: keyword in the lower-cased
query, or more than 50 result rows. -/
def shouldShowArtifact {α : Type} (userQuery : List Char) (results : List α) : Bool :=
  let query := lowerAll userQuery
  artifactKeywords.any (fun k => listContains query k) || decide (results.length > 50)

/-- Suggestions for the users-from-India special case. -/
def indiaSuggestions : List (List Char) :=
  [("Show me users from other countries").toList,
   ("What departments do India users work in?").toList,
   ("How many active users are there in total?").toList]

/-- Suggestions for queries mentioning a department. -/
def departmentSuggestions : List (List Char) :=
  [("Which department has the most users?").toList,
   ("Show me user activity by department").toList,
   ("What licenses do IT department users have?").toList]

/-- Suggestions for queries mentioning licenses. -/
def licenseSuggestions : List (List Char) :=
  [("Show me license utilization rates").toList,
   ("Which licenses are most expensive?").toList,
   ("How many unlicensed users do we have?").toList]

/-- Suggestions for queries mentioning countries. -/
def countrySuggestions : List (List Char) :=
  [("Show me user distribution by country").toList,
   ("Which country has the most active users?").toList,
   ("What is the average activity per country?").toList]

/-- Suggestions for queries mentioning activity. -/
def activeSuggestions : List (List Char) :=
  [("Show me inactive users").toList,
   ("What makes a user active vs inactive?").toList,
   ("Show me user activity trends").toList]

/-- Default suggestions when no topic keyword matches. -/
def defaultSuggestions : List (List Char) :=
  [("How many users do we have by country?").toList,
   ("Show me license costs by department").toList,
   ("Which users have not signed in recently?").toList]

/-- `generateSuggestions` from ChatBot.js.  The `hasResults` parameter is
accepted (as in the source) but never read by the body. -/
def generateSuggestions (userQuery : List Char) (hasResults : Bool) : List (List Char) :=
  let query := lowerAll userQuery
  if listContains query (("user").toList) && listContains query (("india").toList) then
    indiaSuggestions
  else if listContains query (("department").toList) then
    departmentSuggestions
  else if listContains query (("license").toList) then
    licenseSuggestions
  else if listContains query (("country").toList) || listContains query (("countries").toList) then
    countrySuggestions
  else if listContains query (("active").toList) then
    activeSuggestions
  else
    defaultSuggestions

example : classifyQuery (("How many users do we have?").toList) = .noSidebar := by decide
example : classifyQuery (("Show me users from India").toList) = .showSidebar := by decide
example : classifyQuery (("Which country has the most users").toList) = .briefShow := by decide
example : classifyQuery (("hello").toList) = .autoDecide := by decide
example : shouldShowArtifact (("export full list").toList) ([] : List Nat) = true := by decide
example : shouldShowArtifact (("hello").toList) (List.replicate 51 0) = true := by decide
example : shouldShowArtifact (("hello").toList) (List.replicate 50 0) = false := by decide
example : generateSuggestions (("country department").toList) false = departmentSuggestions := by decide

/-! ### Substring and lower-casing lemmas -/

theorem startsWithSub_map (f : Char → Char) (hay needle : List Char)
    (h : startsWithSub hay needle = true) :
    startsWithSub (hay.map f) (needle.map f) = true := by
  induction needle generalizing hay with
  | nil => simp [startsWithSub]
  | cons n ns ih =>
    cases hay with
    | nil => simp [startsWithSub] at h
    | cons c cs =>
      simp only [startsWithSub, Bool.and_eq_true, beq_iff_eq] at h
      simp only [List.map_cons, startsWithSub, Bool.and_eq_true, beq_iff_eq]
      exact ⟨by rw [h.1], ih cs h.2⟩

theorem listContains_map (f : Char → Char) (hay needle : List Char)
    (h : listContains hay needle = true) :
    listContains (hay.map f) (needle.map f) = true := by
  induction hay with
  | nil =>
    simp only [listContains, List.isEmpty_iff] at h
    simp [h, listContains, List.isEmpty_iff]
  | cons c cs ih =>
    simp only [listContains, Bool.or_eq_true] at h
    rcases h with h | h
    · have := startsWithSub_map f (c :: cs) needle h
      simp only [List.map_cons] at this ⊢
      simp only [listContains, Bool.or_eq_true]
      exact Or.inl this
    · simp only [List.map_cons, listContains, Bool.or_eq_true]
      exact Or.inr (ih h)

/-- Containment in the raw query survives the classifier's lower-casing,
for an already-lower-case phrase. -/
theorem listContains_lowerAll (q phrase : List Char)
    (hfix : lowerAll phrase = phrase)
    (h : listContains q phrase = true) :
    listContains (lowerAll q) phrase = true := by
  have := listContains_map Char.toLower q phrase h
  rwa [show phrase.map Char.toLower = phrase from hfix] at this

/-! ### Claim theorems: classifier, artifact eligibility, suggestions -/

/-- Claim C3: the classifier lower-cases the query and tests the three
phrase sets in the fixed order simple, brief-show, detailed, first match
winning and `auto-decide` when none match.  In particular a query
containing "how many" is classified `no-sidebar`, a query matching both
the simple and the brief-show set is classified `no-sidebar`, and a
query matching none of the three sets is classified `auto-decide`. -/
theorem classifyQuery_precedence (q r : List Char)
    (hq : listContains q (("how many").toList) = true)
    (hr1 : phraseMatch (lowerAll r) simpleQueries = true)
    (hr2 : phraseMatch (lowerAll r) briefShowQueries = true) :
    classifyQuery q = SidebarBehavior.noSidebar ∧
    classifyQuery r = SidebarBehavior.noSidebar ∧
    (∀ s : List Char, phraseMatch (lowerAll s) simpleQueries = false →
      phraseMatch (lowerAll s) briefShowQueries = false →
      phraseMatch (lowerAll s) detailedQueries = false →
      classifyQuery s = SidebarBehavior.autoDecide) := by
  refine ⟨?_, ?_, ?_⟩
  · have hlow : listContains (lowerAll q) (("how many").toList) = true :=
      listContains_lowerAll q _ (by decide) hq
    have hmatch : phraseMatch (lowerAll q) simpleQueries = true := by
      simp only [phraseMatch, List.any_eq_true]
      exact ⟨("how many").toList, by simp [simpleQueries], hlow⟩
    simp [classifyQuery, hmatch]
  · simp [classifyQuery, hr1]
  · intro s h1 h2 h3
    simp [classifyQuery, h1, h2, h3]

/-- Witness for `classifyQuery_precedence` at concrete queries. -/
theorem classifyQuery_precedence_witness :
    listContains (("how many users are active").toList) (("how many").toList) = true ∧
    phraseMatch (lowerAll (("how many have the highest cost").toList)) simpleQueries = true ∧
    phraseMatch (lowerAll (("how many have the highest cost").toList)) briefShowQueries = true ∧
    classifyQuery (("how many users are active").toList) = SidebarBehavior.noSidebar := by
  refine ⟨by decide, by decide, by decide, ?_⟩
  exact (classifyQuery_precedence (("how many users are active").toList)
    (("how many have the highest cost").toList) (by decide) (by decide) (by decide)).1

/-- Claim C6: artifact eligibility is a pure predicate over the query
and the result rows, true exactly when the lower-cased query contains an
export keyword or there are more than 50 rows; with more than 50 rows it
is true regardless of the query. -/
theorem shouldShowArtifact_spec {α : Type} (q : List Char) (results : List α) :
    (shouldShowArtifact q results = true ↔
      ((∃ k ∈ artifactKeywords, listContains (lowerAll q) k = true) ∨
        results.length > 50)) ∧
    (results.length > 50 → shouldShowArtifact q results = true) := by
  constructor
  · simp [shouldShowArtifact, List.any_eq_true]
  · intro h
    simp [shouldShowArtifact, List.any_eq_true, h]

/-- Witness for `shouldShowArtifact_spec`: 51 rows force eligibility. -/
theorem shouldShowArtifact_spec_witness :
    (List.replicate 51 (0 : Nat)).length > 50 ∧
    shouldShowArtifact (("hello").toList) (List.replicate 51 (0 : Nat)) = true := by
  refine ⟨by decide, ?_⟩
  exact (shouldShowArtifact_spec (("hello").toList) (List.replicate 51 (0 : Nat))).2 (by decide)

/-- Claim C7 counterexample: the claim says a query containing both
"country" and "department" receives the country topic's list, but the
source checks the department topic first: the concrete query
"country department" yields the department list, which differs from the
country list. -/
theorem generateSuggestions_cex :
    generateSuggestions (("country department").toList) false = departmentSuggestions ∧
    departmentSuggestions ≠ countrySuggestions ∧
    listContains (lowerAll (("country department").toList)) (("country").toList) = true ∧
    listContains (lowerAll (("country department").toList)) (("department").toList) = true := by
  refine ⟨by decide, by decide, by decide, by decide⟩

/-- Claim C7 (amended): the suggestion generator lower-cases the query
and substring-tests it in the fixed order users-from-India special case,
department, license, country, active, first match winning; every output
is a fixed 3-item list and a query matching no topic yields the default
3-item list; a query containing both "country" and "department" (and not
the India special case) receives the department list. -/
theorem generateSuggestions_amended (q : List Char) (b : Bool)
    (hni : ¬(listContains (lowerAll q) (("user").toList) = true ∧
             listContains (lowerAll q) (("india").toList) = true))
    (hdep : listContains (lowerAll q) (("department").toList) = true) :
    generateSuggestions q b = departmentSuggestions ∧
    (∀ (r : List Char) (c : Bool), (generateSuggestions r c).length = 3) ∧
    (∀ (r : List Char) (c : Bool),
      ¬(listContains (lowerAll r) (("user").toList) = true ∧
        listContains (lowerAll r) (("india").toList) = true) →
      listContains (lowerAll r) (("department").toList) = false →
      listContains (lowerAll r) (("license").toList) = false →
      listContains (lowerAll r) (("country").toList) = false →
      listContains (lowerAll r) (("countries").toList) = false →
      listContains (lowerAll r) (("active").toList) = false →
      generateSuggestions r c = defaultSuggestions) := by
  refine ⟨?_, ?_, ?_⟩
  · have hcond : ¬((listContains (lowerAll q) (("user").toList) &&
        listContains (lowerAll q) (("india").toList)) = true) := by
      intro hc
      exact hni ((Bool.and_eq_true _ _).mp hc)
    unfold generateSuggestions
    dsimp only
    rw [if_neg hcond, if_pos hdep]
  · intro r c
    unfold generateSuggestions
    dsimp only
    repeat' split
    all_goals rfl
  · intro r c hni0 h1 h2 h3 h4 h5
    have hcond : ¬((listContains (lowerAll r) (("user").toList) &&
        listContains (lowerAll r) (("india").toList)) = true) := by
      intro hc
      exact hni0 ((Bool.and_eq_true _ _).mp hc)
    unfold generateSuggestions
    dsimp only
    rw [if_neg hcond, if_neg (by rw [h1]; decide), if_neg (by rw [h2]; decide),
      if_neg (by rw [h3, h4]; decide), if_neg (by rw [h5]; decide)]

/-- Witness for `generateSuggestions_amended` at the query
"country department". -/
theorem generateSuggestions_amended_witness :
    ¬(listContains (lowerAll (("country department").toList)) (("user").toList) = true ∧
      listContains (lowerAll (("country department").toList)) (("india").toList) = true) ∧
    generateSuggestions (("country department").toList) false = departmentSuggestions := by
  refine ⟨by decide, ?_⟩
  exact (generateSuggestions_amended (("country department").toList) false
    (by decide) (by decide)).1

/-! ### Progressive text renderer (TypewriterText)

The component keeps `displayText` and `currentIndex` and runs an
interval; each tick either reveals one more character or, once the whole
text is shown, clears the interval and fires `onComplete`.  The effect
returns early (installing no interval) when `text` is empty. -/

/-- State of one TypewriterText reveal instance. -/
structure TWState where
  currentIndex : Nat
  display : List Char
  active : Bool
  completions : Nat
deriving DecidableEq

/-- Initial state: empty display, interval installed, no callback yet. -/
def twInit : TWState := ⟨0, [], true, 0⟩

/-- One interval tick of TypewriterText. -/
def twTick (text : List Char) (s : TWState) : TWState :=
  if s.active = false then s
  else if s.currentIndex < text.length then
    { s with currentIndex := s.currentIndex + 1, display := text.take (s.currentIndex + 1) }
  else
    { s with active := false, completions := s.completions + 1 }

/-- State after `n` interval ticks, starting from a fresh reveal. -/
def twRun (text : List Char) : Nat → TWState
  | 0 => twInit
  | n + 1 => twTick text (twRun text n)

/-- The mounted effect: `if (!text) return` installs no interval for
empty text, so its state never changes; otherwise `n` ticks run. -/
def twEffect (text : List Char) (n : Nat) : TWState :=
  if text.isEmpty then twInit else twRun text n

theorem twRun_of_le (text : List Char) (k : Nat) (hk : k ≤ text.length) :
    twRun text k = ⟨k, text.take k, true, 0⟩ := by
  induction k with
  | zero => simp [twRun, twInit]
  | succ m ih =>
    have hm : m ≤ text.length := Nat.le_of_succ_le hk
    have hlt : m < text.length := Nat.lt_of_succ_le hk
    rw [twRun, ih hm]
    simp [twTick, hlt]

theorem twRun_complete (text : List Char) :
    twRun text (text.length + 1) = ⟨text.length, text, false, 1⟩ := by
  rw [twRun, twRun_of_le text text.length (Nat.le_refl _)]
  simp [twTick, List.take_length]

theorem twTick_inactive (text : List Char) (s : TWState) (h : s.active = false) :
    twTick text s = s := by
  simp [twTick, h]

theorem twRun_stable (text : List Char) (n : Nat) :
    twRun text (text.length + 1 + n) = ⟨text.length, text, false, 1⟩ := by
  induction n with
  | zero => exact twRun_complete text
  | succ m ih =>
    have : text.length + 1 + (m + 1) = (text.length + 1 + m) + 1 := by omega
    rw [this, twRun, ih, twTick_inactive]
    rfl

/-- Claim C4 counterexample: for the empty text (length 0) the claim
asserts the completion callback fires exactly once, but the effect
returns before installing the interval, so the callback never fires: the
completion count is still 0 after 1000 scheduled tick opportunities. -/
theorem typewriter_empty_cex :
    (twEffect [] 1000).completions = 0 ∧ ¬(twEffect [] 1000).completions = 1 ∧
    (twEffect [] 1000).display = [] := by
  refine ⟨rfl, by decide, rfl⟩

/-- Claim C4 (amended): for every nonempty text of length L the renderer
passes through exactly the L+1 distinct display states `take 0`, ...,
`take L` (L intermediate states after the initial empty one), fires the
completion callback exactly once — at tick L+1, with no further change —
and for empty text it installs no interval: zero ticks, no error, but
also no completion callback. -/
theorem typewriter_reveal (text : List Char) (h : ¬text = []) :
    (∀ k, k ≤ text.length →
      (twEffect text k).display = text.take k ∧ (twEffect text k).completions = 0) ∧
    (∀ n, (twEffect text (text.length + 1 + n)).completions = 1 ∧
      (twEffect text (text.length + 1 + n)).display = text) ∧
    ((List.range (text.length + 1)).map (fun k => (twEffect text k).display)).Nodup ∧
    (∀ n, twEffect [] n = twInit) := by
  have hne : text.isEmpty = false := by
    cases text with
    | nil => exact absurd rfl h
    | cons c cs => rfl
  refine ⟨?_, ?_, ?_, ?_⟩
  · intro k hk
    rw [twEffect, hne]
    simp only [Bool.false_eq_true, if_false]
    rw [twRun_of_le text k hk]
    exact ⟨rfl, rfl⟩
  · intro n
    rw [twEffect, hne]
    simp only [Bool.false_eq_true, if_false]
    rw [twRun_stable text n]
    exact ⟨rfl, rfl⟩
  · have hdisp : ∀ k ∈ List.range (text.length + 1),
        (twEffect text k).display = text.take k := by
      intro k hk
      have hk' : k ≤ text.length := by
        have := List.mem_range.mp hk
        omega
      rw [twEffect, hne]
      simp only [Bool.false_eq_true, if_false]
      rw [twRun_of_le text k hk']
    have hinj : ∀ x ∈ List.range (text.length + 1), ∀ y ∈ List.range (text.length + 1),
        (twEffect text x).display = (twEffect text y).display → x = y := by
      intro x hx y hy hxy
      have hx' : x ≤ text.length := by
        have := List.mem_range.mp hx
        omega
      have hy' : y ≤ text.length := by
        have := List.mem_range.mp hy
        omega
      rw [hdisp x hx, hdisp y hy] at hxy
      have hlen := congrArg List.length hxy
      rw [List.length_take, List.length_take] at hlen
      omega
    exact (List.nodup_range (text.length + 1)).map_on hinj
  · intro n
    rfl

/-- Witness for `typewriter_reveal` at the 5-character text "hello". -/
theorem typewriter_reveal_witness :
    ¬(("hello").toList = []) ∧
    (twEffect (("hello").toList) 3).display = (("hello").toList).take 3 ∧
    (twEffect (("hello").toList) 6).completions = 1 := by
  refine ⟨by decide, ?_, ?_⟩
  · exact ((typewriter_reveal (("hello").toList) (by decide)).1 3 (by decide)).1
  · exact ((typewriter_reveal (("hello").toList) (by decide)).2.1 0).1

/-! ### Progressive table renderer (AnimatedTable) and cycle timing

AnimatedTable's effect runs when the component mounts, i.e. as soon as
`sidebarData` is attached; each 100 time-unit tick reveals one row up to
`min rows 50`, then clears the interval and fires `onComplete`.  The
TypewriterText for the same reply mounts in the same render commit, with
a 20 time-unit cadence.  `handleTypingComplete` sets `sidebarTyping`
after the text completes, but `AnimatedTable` never reads that flag, so
nothing delays the table's interval. -/

/-- State of one AnimatedTable reveal instance. -/
structure ATState where
  currentRow : Nat
  isComplete : Bool
  active : Bool
  completions : Nat
deriving DecidableEq

/-- Initial state at mount: no rows visible, interval installed. -/
def atInit : ATState := ⟨0, false, true, 0⟩

/-- One interval tick of AnimatedTable over `rows` data rows. -/
def atTick (rows : Nat) (s : ATState) : ATState :=
  if s.active = false then s
  else if s.currentRow < min rows 50 then
    { s with currentRow := s.currentRow + 1 }
  else
    { s with isComplete := true, active := false, completions := s.completions + 1 }

/-- State after `n` interval ticks. -/
def atRun (rows : Nat) : Nat → ATState
  | 0 => atInit
  | n + 1 => atTick rows (atRun rows n)

/-- The mounted effect: empty data installs no interval. -/
def atEffect (rows : Nat) (n : Nat) : ATState :=
  if rows = 0 then atInit else atRun rows n

/-- TypewriterText cadence (`speed = 20`). -/
def typewriterSpeed : Nat := 20

/-- AnimatedTable cadence (one row every 100 time-units). -/
def tableRowInterval : Nat := 100

/-- brief-show auto-close delay (`setTimeout(..., 5000)`). -/
def autoCloseDelay : Nat := 5000

/-- Text reveal state at absolute time `t` after the reply is rendered:
the interval has fired `t / 20` times. -/
def textStateAt (text : List Char) (t : Nat) : TWState :=
  twEffect text (t / typewriterSpeed)

/-- Table reveal state at absolute time `t` after the reply is rendered:
the interval has fired `t / 100` times, starting at mount. -/
def tableStateAt (rows : Nat) (t : Nat) : ATState :=
  atEffect rows (t / tableRowInterval)

/-- Time at which AnimatedTable fires `onComplete`: one tick past the
last revealed row. -/
def tableCompleteTime (rows : Nat) : Nat := tableRowInterval * (min rows 50 + 1)

/-- Claim C1: the code contradicts the claimed chaining.  With the reply
of scenario 2 (12 result rows, a 36-character assistant message), at
time 100 the table reveal has already shown its first row while the text
reveal is incomplete (5 of 36 characters, callback not yet fired): the
two reveals run concurrently within one cycle. -/
theorem table_reveal_overlaps_text_reveal :
    (tableStateAt 12 100).currentRow = 1 ∧
    (textStateAt (("Here are the users from India region").toList) 100).completions = 0 ∧
    (textStateAt (("Here are the users from India region").toList) 100).display ≠
      ("Here are the users from India region").toList ∧
    (textStateAt (("Here are the users from India region").toList)
      (typewriterSpeed * 37)).completions = 1 := by
  refine ⟨rfl, rfl, by decide, rfl⟩

/-! ### Sidebar auto-close timer (brief-show)

`sendMessage` attaches the payload and, for `brief-show`, immediately
starts `setTimeout(5000)` clearing the payload; a new query submission
or the explicit close button clears both the payload and the timer. -/

/-- Events affecting the pending auto-close timer. -/
inductive PanelEvent where
  | tick
  | newQuery
  | userClose
deriving DecidableEq

/-- Sidebar payload state plus remaining time on the pending timer
(`none` = no timer pending). -/
structure PanelState where
  hasPayload : Bool
  autoClose : Option Nat
deriving DecidableEq

/-- State right after `sendMessage` attaches a brief-show payload: the
payload is set and a 5000 time-unit auto-close timer starts. -/
def briefShowAttach : PanelState := ⟨true, some autoCloseDelay⟩

/-- The closed sidebar: no payload, no timer. -/
def panelClosed : PanelState := ⟨false, none⟩

/-- One event step of the sidebar timer machine: a tick counts the
pending timer down and fires it when it expires (clearing the payload);
a new query or an explicit close clears payload and timer. -/
def panelStep : PanelState → PanelEvent → PanelState
  | ⟨p, some (n + 1)⟩, .tick => if n = 0 then panelClosed else ⟨p, some n⟩
  | ⟨p, some 0⟩, .tick => ⟨p, some 0⟩
  | ⟨p, none⟩, .tick => ⟨p, none⟩
  | _, .newQuery => panelClosed
  | _, .userClose => panelClosed

/-- Run a list of events. -/
def panelRun (s : PanelState) (es : List PanelEvent) : PanelState :=
  es.foldl panelStep s

/-- `k` consecutive time-unit ticks. -/
def ticksOf (k : Nat) : List PanelEvent := List.replicate k .tick

theorem panelRun_append (s : PanelState) (es fs : List PanelEvent) :
    panelRun s (es ++ fs) = panelRun (panelRun s es) fs := by
  simp [panelRun, List.foldl_append]

theorem ticksOf_succ (k : Nat) : ticksOf (k + 1) = PanelEvent.tick :: ticksOf k := rfl

theorem panelRun_ticks_lt (n k : Nat) (hk : k < n) :
    panelRun ⟨true, some n⟩ (ticksOf k) = ⟨true, some (n - k)⟩ := by
  induction k generalizing n with
  | zero => simp [panelRun, ticksOf]
  | succ m ih =>
    rw [ticksOf_succ]
    cases n with
    | zero => omega
    | succ p =>
      have hp : p ≠ 0 := by omega
      show panelRun (panelStep ⟨true, some (p + 1)⟩ .tick) (ticksOf m) = _
      rw [show panelStep ⟨true, some (p + 1)⟩ .tick = ⟨true, some p⟩ by
        simp [panelStep, hp]]
      rw [ih p (by omega)]
      congr 2
      omega

theorem panelRun_closed (es : List PanelEvent) :
    panelRun panelClosed es = panelClosed := by
  induction es with
  | nil => rfl
  | cons e es ih =>
    have hstep : panelStep panelClosed e = panelClosed := by
      cases e <;> rfl
    show panelRun (panelStep panelClosed e) es = panelClosed
    rw [hstep, ih]

theorem panelRun_ticks_fire (n : Nat) (hn : 1 ≤ n) :
    panelRun ⟨true, some n⟩ (ticksOf n) = panelClosed := by
  cases n with
  | zero => omega
  | succ p =>
    cases p with
    | zero => rfl
    | succ q =>
      have h1 : (q + 1 : Nat) < q + 2 := by omega
      have : ticksOf (q + 2) = ticksOf (q + 1) ++ ticksOf 1 := by
        simp [ticksOf, List.replicate_add]
      rw [this, panelRun_append, panelRun_ticks_lt (q + 2) (q + 1) h1]
      have : (q + 2) - (q + 1) = 1 := by omega
      rw [this]
      rfl

theorem panelStep_newQuery (s : PanelState) :
    panelStep s .newQuery = panelClosed := by
  rcases s with ⟨p, a⟩
  rcases a with _ | n
  · rfl
  · cases n <;> rfl

theorem panelStep_userClose (s : PanelState) :
    panelStep s .userClose = panelClosed := by
  rcases s with ⟨p, a⟩
  rcases a with _ | n
  · rfl
  · cases n <;> rfl

/-- Claim C2 counterexample: with one result row (scenario 3) the table
reveal — the spec's entry into `Open` — completes at time 200, so the
claim puts the auto-close at 5200; the code's timer is started when the
payload is attached and fires at exactly 5000: the panel is still open
after 4999 ticks, closed at tick 5000, and 5000 differs from
`tableCompleteTime 1 + 5000`. -/
theorem brief_autoclose_cex :
    (panelRun briefShowAttach (ticksOf 4999)).hasPayload = true ∧
    panelRun briefShowAttach (ticksOf 5000) = panelClosed ∧
    (tableStateAt 1 (tableCompleteTime 1)).completions = 1 ∧
    (tableStateAt 1 (tableCompleteTime 1 - 1)).completions = 0 ∧
    autoCloseDelay ≠ tableCompleteTime 1 + autoCloseDelay := by
  refine ⟨?_, ?_, by decide, by decide, by decide⟩
  · rw [show briefShowAttach = (⟨true, some 5000⟩ : PanelState) from rfl,
      panelRun_ticks_lt 5000 4999 (by omega)]
  · exact panelRun_ticks_fire 5000 (by omega)

/-- Claim C2 (amended): for a brief-show response with a payload, the
panel transitions to closed (payload cleared) exactly 5000 time-units
after the payload is attached — not after the table reveal completes —
unless a new query submission or an explicit user close cancels the
timer earlier, after which it stays closed. -/
theorem brief_autoclose_timer (k j m : Nat) (hk : k < autoCloseDelay) :
    (panelRun briefShowAttach (ticksOf k)).hasPayload = true ∧
    panelRun briefShowAttach (ticksOf autoCloseDelay) = panelClosed ∧
    panelRun briefShowAttach (ticksOf j ++ PanelEvent.newQuery :: ticksOf m) = panelClosed ∧
    panelRun briefShowAttach (ticksOf j ++ PanelEvent.userClose :: ticksOf m) = panelClosed := by
  refine ⟨?_, panelRun_ticks_fire autoCloseDelay (by decide), ?_, ?_⟩
  · rw [show briefShowAttach = (⟨true, some autoCloseDelay⟩ : PanelState) from rfl,
      panelRun_ticks_lt autoCloseDelay k hk]
  · rw [panelRun_append]
    show panelRun (panelStep (panelRun briefShowAttach (ticksOf j)) .newQuery) (ticksOf m) = _
    rw [panelStep_newQuery, panelRun_closed]
  · rw [panelRun_append]
    show panelRun (panelStep (panelRun briefShowAttach (ticksOf j)) .userClose) (ticksOf m) = _
    rw [panelStep_userClose, panelRun_closed]

/-- Witness for `brief_autoclose_timer` at 100 elapsed ticks with
cancellations after 3 ticks. -/
theorem brief_autoclose_timer_witness :
    100 < autoCloseDelay ∧
    (panelRun briefShowAttach (ticksOf 100)).hasPayload = true ∧
    panelRun briefShowAttach (ticksOf 3 ++ PanelEvent.newQuery :: ticksOf 7) = panelClosed := by
  refine ⟨by decide, ?_, ?_⟩
  · exact (brief_autoclose_timer 100 3 7 (by decide)).1
  · exact (brief_autoclose_timer 100 3 7 (by decide)).2.2.1

/-! ### Session store: persistence and restore

The persistence effect saves the non-typing messages, trimmed to the
last 100 (`slice(-100)`), whenever the message list changes, and skips
the save when nothing remains.  `getStoredData` plus the `useState`
initializer restore the parsed list with `isTyping` forced to `false`,
falling back to the default greeting when storage is absent, fails to
parse, or holds an empty list. -/

/-- Message roles (`type` field: `user` or `bot`). -/
inductive MsgRole where
  | user
  | bot
deriving DecidableEq

/-- Apostrophe character, used in the source's literal strings. -/
def apos : Char := Char.ofNat 39

/-- A persisted chat message, as serialized to storage. -/
structure StoredMsg where
  mid : Nat
  role : MsgRole
  message : List Char
  timestamp : Nat
  isTyping : Bool
deriving DecidableEq

/-- The default greeting message text. -/
def greetingText : List Char :=
  (("Hi! I").toList) ++ (apos :: (("m 365 Tune Bot. Ask me questions about your Microsoft 365 data.").toList))

/-- The default greeting message installed when nothing is restored. -/
def greetingMsg : StoredMsg := ⟨1, .bot, greetingText, 0, false⟩

/-- The persistence effect: filter out typing messages, keep the last
100, and only write when something remains (`store` is the prior
storage content, `none` meaning empty storage). -/
def persistMessages (store : Option (List StoredMsg)) (messages : List StoredMsg) :
    Option (List StoredMsg) :=
  let messagesToSave := messages.filter (fun m => !m.isTyping)
  if messagesToSave.length > 0 then
    some (messagesToSave.drop (messagesToSave.length - 100))
  else store

/-- Restore on controller initialization: parsed messages get
`isTyping := false`; absent, unparsable (`none`) or empty storage falls
back to the greeting. -/
def restoreMessages (store : Option (List StoredMsg)) : List StoredMsg :=
  match store with
  | none => [greetingMsg]
  | some parsed =>
    let restored := parsed.map (fun m => { m with isTyping := false })
    if restored.length > 0 then restored else [greetingMsg]

/-- Claim C5: persisting a finalized (no message typing) session of at
most 100 messages and restoring reproduces exactly the same list — in
particular the same ordered (role, text) pairs — with `isTyping` false
on every restored message.  Sessions in this controller are never empty
(the greeting is installed at creation and messages are only appended),
hence the nonemptiness hypothesis. -/
theorem session_roundtrip (store : Option (List StoredMsg)) (msgs : List StoredMsg)
    (hne : ¬msgs = []) (hfin : ∀ m ∈ msgs, m.isTyping = false)
    (hlen : msgs.length ≤ 100) :
    restoreMessages (persistMessages store msgs) = msgs ∧
    (restoreMessages (persistMessages store msgs)).map (fun m => (m.role, m.message)) =
      msgs.map (fun m => (m.role, m.message)) ∧
    ∀ m ∈ restoreMessages (persistMessages store msgs), m.isTyping = false := by
  have hfilter : msgs.filter (fun m => !m.isTyping) = msgs := by
    apply List.filter_eq_self.mpr
    intro m hm
    simp [hfin m hm]
  have hlen0 : 0 < msgs.length := by
    cases msgs with
    | nil => exact absurd rfl hne
    | cons a as => simp
  have hdrop : msgs.length - 100 = 0 := by omega
  have hpersist : persistMessages store msgs = some msgs := by
    unfold persistMessages
    dsimp only
    rw [hfilter, hdrop, if_pos hlen0, List.drop_zero]
  have hmap : msgs.map (fun m => { m with isTyping := false }) = msgs := by
    clear hlen hdrop hlen0 hfilter hne hpersist
    induction msgs with
    | nil => rfl
    | cons a as ih =>
      have ha : ({ a with isTyping := false } : StoredMsg) = a := by
        have := hfin a (by simp)
        cases a
        simp_all
      rw [List.map_cons, ha, ih (fun m hm => hfin m (by simp [hm]))]
  have hrestore : restoreMessages (persistMessages store msgs) = msgs := by
    rw [hpersist]
    unfold restoreMessages
    dsimp only
    rw [hmap, if_pos hlen0]
  refine ⟨hrestore, by rw [hrestore], ?_⟩
  intro m hm
  rw [hrestore] at hm
  exact hfin m hm

/-- Witness for `session_roundtrip` on a concrete two-message session. -/
theorem session_roundtrip_witness :
    ¬([greetingMsg, ⟨2, MsgRole.user, (("hi").toList), 5, false⟩] = ([] : List StoredMsg)) ∧
    restoreMessages (persistMessages none
        [greetingMsg, ⟨2, MsgRole.user, (("hi").toList), 5, false⟩]) =
      [greetingMsg, ⟨2, MsgRole.user, (("hi").toList), 5, false⟩] := by
  refine ⟨by decide, ?_⟩
  exact (session_roundtrip none [greetingMsg, ⟨2, MsgRole.user, (("hi").toList), 5, false⟩]
    (by decide) (by decide) (by decide)).1

/-! ### Fallback assistant message text -/

/-- The fixed fallback text used when the backend reply has no usable
message. -/
def fallbackText : List Char :=
  (("Sorry, I couldn").toList) ++ (apos :: (("t process your request at the moment.").toList))

/-- JS whitespace characters relevant to `String.trim` here. -/
def isWS (c : Char) : Bool :=
  c = ' ' || c = '\t' || c = '\n' || c = '\r' || c = '\x0b' || c = '\x0c'

/-- JS `trim`: strip whitespace from both ends. -/
def trimChars (s : List Char) : List Char :=
  ((s.dropWhile isWS).reverse.dropWhile isWS).reverse

/-- `sendMessage`'s message normalization: absent (`none`), empty or
whitespace-only reply text becomes the fixed fallback string. -/
def formatBotText : Option (List Char) → List Char
  | none => fallbackText
  | some t => if t.isEmpty || (trimChars t).isEmpty then fallbackText else t

theorem dropWhile_all (p : Char → Bool) (s : List Char) (h : ∀ c ∈ s, p c = true) :
    s.dropWhile p = [] := by
  induction s with
  | nil => rfl
  | cons c cs ih =>
    rw [List.dropWhile_cons_of_pos (h c (by simp))]
    exact ih (fun d hd => h d (by simp [hd]))

/-- Claim C10: whenever the backend reply's message text is absent,
empty, or consists only of whitespace, the appended assistant message
carries the fixed fallback string rather than the empty text. -/
theorem fallback_on_blank_message (m : Option (List Char))
    (h : m = none ∨ ∃ t, m = some t ∧ ∀ c ∈ t, isWS c = true) :
    formatBotText m = fallbackText := by
  rcases h with h | ⟨t, rfl, hall⟩
  · rw [h]
    rfl
  · have htrim : trimChars t = [] := by
      unfold trimChars
      rw [dropWhile_all isWS t hall]
      rfl
    have heq : formatBotText (some t) =
        if t.isEmpty || (trimChars t).isEmpty then fallbackText else t := rfl
    rw [heq, htrim]
    simp

/-- Witness for `fallback_on_blank_message` on a whitespace-only reply. -/
theorem fallback_on_blank_message_witness :
    (some ((("   ").toList)) = none ∨
      ∃ t, some ((("   ").toList)) = some t ∧ ∀ c ∈ t, isWS c = true) ∧
    formatBotText (some ((("   ").toList))) = fallbackText := by
  refine ⟨Or.inr ⟨(("   ").toList), rfl, by decide⟩, ?_⟩
  exact fallback_on_blank_message (some ((("   ").toList)))
    (Or.inr ⟨(("   ").toList), rfl, by decide⟩)

/-! ### Controller transition system (message reveal states)

`sendMessage` rejects a submission only while `isLoading` is true; a
reply (success or error) appends one assistant message with
`isTyping = true` and clears `isLoading`; `handleTypingComplete` flips
the matching message's `isTyping` off.  Nothing stops a new submission
while the previous assistant message is still revealing. -/

/-- A message as the controller sees it: id, role and reveal flag. -/
structure ChatMsg where
  mid : Nat
  role : MsgRole
  isTyping : Bool
deriving DecidableEq

/-- Controller state: the message list and the busy flag. -/
structure ChatState where
  messages : List ChatMsg
  isLoading : Bool
deriving DecidableEq

/-- Initial controller state: the greeting, not loading. -/
def chatInit : ChatState := ⟨[⟨1, .bot, false⟩], false⟩

/-- Number of messages currently in the revealing state. -/
def revealingCount (s : ChatState) : Nat :=
  s.messages.countP (fun m => m.isTyping)

/-- Interleaved controller events, from `sendMessage` and
`handleTypingComplete`: a submission (guarded only by the busy flag)
appends a non-revealing user message and sets the busy flag; a backend
reply (success or failure alike) appends one revealing assistant message
and clears the busy flag; a reveal completion flips the matching
message's `isTyping` off. -/
inductive ChatStep : ChatState → ChatState → Prop where
  | submit (s : ChatState) (i : Nat) (h : s.isLoading = false) :
      ChatStep s ⟨s.messages ++ [⟨i, .user, false⟩], true⟩
  | reply (s : ChatState) (i : Nat) (h : s.isLoading = true) :
      ChatStep s ⟨s.messages ++ [⟨i, .bot, true⟩], false⟩
  | finishTyping (s : ChatState) (i : Nat) :
      ChatStep s ⟨s.messages.map (fun m => if m.mid = i then ⟨m.mid, m.role, false⟩ else m),
        s.isLoading⟩

/-- States reachable from the initial state. -/
inductive Reachable : ChatState → Prop where
  | init : Reachable chatInit
  | step {s t : ChatState} (hs : Reachable s) (h : ChatStep s t) : Reachable t

/-- Claim C8 counterexample: submitting a second query while the first
reply is still revealing is allowed (the busy flag is already clear),
and its reply puts a second message into the revealing state: a
reachable state has two revealing messages at once. -/
theorem revealing_two_at_once_cex :
    ∃ s : ChatState, Reachable s ∧ revealingCount s = 2 := by
  refine ⟨⟨chatInit.messages ++ [⟨2, .user, false⟩] ++ [⟨3, .bot, true⟩]
      ++ [⟨4, .user, false⟩] ++ [⟨5, .bot, true⟩], false⟩, ?_, by decide⟩
  have h1 : Reachable ⟨chatInit.messages ++ [⟨2, .user, false⟩], true⟩ :=
    Reachable.step Reachable.init (ChatStep.submit chatInit 2 rfl)
  have h2 : Reachable ⟨chatInit.messages ++ [⟨2, .user, false⟩] ++ [⟨3, .bot, true⟩], false⟩ :=
    Reachable.step h1 (ChatStep.reply _ 3 rfl)
  have h3 : Reachable ⟨chatInit.messages ++ [⟨2, .user, false⟩] ++ [⟨3, .bot, true⟩]
      ++ [⟨4, .user, false⟩], true⟩ :=
    Reachable.step h2 (ChatStep.submit _ 4 rfl)
  exact Reachable.step h3 (ChatStep.reply _ 5 rfl)

/-- Reachability when every submission waits for the previous reveal to
finish: `submit` additionally requires no message to be revealing. -/
inductive DReachable : ChatState → Prop where
  | init : DReachable chatInit
  | submit {s : ChatState} (hs : DReachable s) (i : Nat) (h : s.isLoading = false)
      (hr : revealingCount s = 0) :
      DReachable ⟨s.messages ++ [⟨i, .user, false⟩], true⟩
  | reply {s : ChatState} (hs : DReachable s) (i : Nat) (h : s.isLoading = true) :
      DReachable ⟨s.messages ++ [⟨i, .bot, true⟩], false⟩
  | finishTyping {s : ChatState} (hs : DReachable s) (i : Nat) :
      DReachable ⟨s.messages.map (fun m => if m.mid = i then ⟨m.mid, m.role, false⟩ else m),
        s.isLoading⟩

theorem countP_map_le_of (p : ChatMsg → Bool) (f : ChatMsg → ChatMsg) (l : List ChatMsg)
    (h : ∀ m, p (f m) = true → p m = true) :
    (l.map f).countP p ≤ l.countP p := by
  induction l with
  | nil => exact Nat.le_refl _
  | cons a as ih =>
    rw [List.map_cons, List.countP_cons, List.countP_cons]
    rcases Bool.eq_false_or_eq_true (p (f a)) with hf | hf
    · rw [hf, h a hf]
      omega
    · rw [hf, if_neg (by decide)]
      omega

theorem countP_map_finish_le (i : Nat) (l : List ChatMsg) :
    (l.map (fun m => if m.mid = i then (⟨m.mid, m.role, false⟩ : ChatMsg) else m)).countP
        (fun m => m.isTyping) ≤ l.countP (fun m => m.isTyping) := by
  apply countP_map_le_of
  intro m hm
  by_cases hd : m.mid = i
  · rw [if_pos hd] at hm
    simp at hm
  · rwa [if_neg hd] at hm

/-- Claim C8 (amended): the busy flag alone does not bound concurrent
reveals across cycles, but under the discipline that every new query is
submitted only after the previous reveal completed, at most one message
is revealing at any time; moreover while a request is outstanding no
message is revealing. -/
theorem revealing_at_most_one (s : ChatState) (hs : DReachable s) :
    revealingCount s ≤ 1 ∧ (s.isLoading = true → revealingCount s = 0) := by
  induction hs with
  | init => exact ⟨by decide, by decide⟩
  | submit hs i h hr ih =>
    unfold revealingCount at hr ⊢
    constructor
    · rw [List.countP_append, hr]
      simp [List.countP_cons]
    · intro _
      rw [List.countP_append, hr]
      simp [List.countP_cons]
  | reply hs i h ih =>
    have hzero : revealingCount _ = 0 := ih.2 h
    unfold revealingCount at hzero ⊢
    constructor
    · rw [List.countP_append, hzero]
      simp [List.countP_cons]
    · intro hcontra
      simp at hcontra
  | @finishTyping s hs i ih =>
    have hle := countP_map_finish_le i s.messages
    unfold revealingCount at ih ⊢
    dsimp only
    refine ⟨le_trans hle ih.1, ?_⟩
    intro hl
    have := ih.2 hl
    omega

/-- Witness for `revealing_at_most_one` after one disciplined cycle. -/
theorem revealing_at_most_one_witness :
    DReachable ⟨chatInit.messages ++ [⟨2, MsgRole.user, false⟩] ++ [⟨3, MsgRole.bot, true⟩], false⟩ ∧
    revealingCount ⟨chatInit.messages ++ [⟨2, MsgRole.user, false⟩] ++ [⟨3, MsgRole.bot, true⟩], false⟩ ≤ 1 := by
  have h1 : DReachable ⟨chatInit.messages ++ [⟨2, MsgRole.user, false⟩], true⟩ :=
    DReachable.submit DReachable.init 2 rfl (by decide)
  have h2 : DReachable ⟨chatInit.messages ++ [⟨2, MsgRole.user, false⟩] ++ [⟨3, MsgRole.bot, true⟩], false⟩ :=
    DReachable.reply h1 3 rfl
  exact ⟨h2, (revealing_at_most_one _ h2).1⟩

/-! ### CSV export (`downloadCSV` in ArtifactView)

`downloadCSV` joins the column names of the first row with commas as the
header, renders every data row (no 50-row cap) with each field wrapped
in quotes and internal quotes doubled, joins all lines with newlines,
and names the file after the title with every non-alphanumeric
character replaced by an underscore, plus `.csv`. -/

/-- A result record: ordered field-name/value pairs (JS objects keep
insertion order). -/
abbrev Row : Type := List (List Char × List Char)

/-- `String(row[col] || '')`: the named field's value, or empty when the
field is missing or falsy. -/
def jsGet (row : Row) (col : List Char) : List Char :=
  match row.find? (fun kv => kv.1 == col) with
  | some kv => kv.2
  | none => []

/-- `Object.keys(data[0])`: the column names, from the first row. -/
def columnsOf : List Row → List (List Char)
  | [] => []
  | r :: _ => r.map Prod.fst

/-- `replace(/"/g, '""')`: double every quote character. -/
def escapeQuotes : List Char → List Char
  | [] => []
  | c :: cs => (if c = '"' then ['"', '"'] else [c]) ++ escapeQuotes cs

/-- One CSV field: quoted, with internal quotes doubled. -/
def quoteField (s : List Char) : List Char := '"' :: (escapeQuotes s ++ ['"'])

/-- JS `Array.join(sep)` over character-list strings. -/
def joinWith (sep : List Char) : List (List Char) → List Char
  | [] => []
  | [x] => x
  | x :: y :: xs => x ++ sep ++ joinWith sep (y :: xs)

/-- One rendered data row: quoted field per column, comma-joined. -/
def renderRow (columns : List (List Char)) (row : Row) : List Char :=
  joinWith [','] (columns.map (fun col => quoteField (jsGet row col)))

/-- The CSV text: header line then every data row, newline-joined. -/
def csvContent (data : List Row) : List Char :=
  joinWith ['\n'] (joinWith [','] (columnsOf data) :: data.map (renderRow (columnsOf data)))

/-- `[a-zA-Z0-9]` as used in the filename regex. -/
def isAlnumAscii (c : Char) : Bool :=
  (('a' ≤ c) && (c ≤ 'z')) || (('A' ≤ c) && (c ≤ 'Z')) || (('0' ≤ c) && (c ≤ '9'))

/-- The source's suggested filename: `title.replace(/[^a-zA-Z0-9]/g, '_') + '.csv'`. -/
def csvFilename (title : List Char) : List Char :=
  (title.map (fun c => if isAlnumAscii c then c else '_')) ++ ((".csv").toList)

/-- The filename the spec's words describe: non-alphanumeric characters
stripped (removed), then `.csv`. -/
def specStrippedFilename (title : List Char) : List Char :=
  (title.filter isAlnumAscii) ++ ((".csv").toList)

/-- Occurrences of a character in a string. -/
def countChar (c : Char) (s : List Char) : Nat :=
  s.countP (fun d => d == c)

/-- Split a character string at newline characters. -/
def splitLines : List Char → List (List Char)
  | [] => [[]]
  | c :: cs =>
    if c = '\n' then [] :: splitLines cs
    else
      match splitLines cs with
      | [] => [[c]]
      | l :: ls => (c :: l) :: ls

theorem splitLines_no_nl (x : List Char) (h : ('\n') ∉ x) : splitLines x = [x] := by
  induction x with
  | nil => rfl
  | cons c cs ih =>
    have hc : ¬c = '\n' := fun hc => h (by simp [hc])
    have hcs : ('\n') ∉ cs := fun hm => h (by simp [hm])
    rw [splitLines, if_neg hc, ih hcs]

theorem splitLines_append (x rest : List Char) (h : ('\n') ∉ x) :
    splitLines (x ++ '\n' :: rest) = x :: splitLines rest := by
  induction x with
  | nil =>
    show splitLines ('\n' :: rest) = [] :: splitLines rest
    rw [splitLines, if_pos rfl]
  | cons c cs ih =>
    have hc : ¬c = '\n' := fun hc => h (by simp [hc])
    have hcs : ('\n') ∉ cs := fun hm => h (by simp [hm])
    show splitLines (c :: (cs ++ '\n' :: rest)) = (c :: cs) :: splitLines rest
    rw [splitLines, if_neg hc, ih hcs]

theorem splitLines_joinWith (lines : List (List Char))
    (h : ∀ l ∈ lines, ('\n') ∉ l) (hne : ¬lines = []) :
    splitLines (joinWith [Char.ofNat 10] lines) = lines := by
  induction lines with
  | nil => exact absurd rfl hne
  | cons x xs ih =>
    cases xs with
    | nil =>
      rw [show joinWith [Char.ofNat 10] [x] = x from rfl]
      exact splitLines_no_nl x (h x (by simp))
    | cons y ys =>
      have hx : ('\n') ∉ x := h x (by simp)
      have hrec : splitLines (joinWith [Char.ofNat 10] (y :: ys)) = y :: ys :=
        ih (fun l hl => h l (by simp [hl])) (by simp)
      have hj : joinWith [Char.ofNat 10] (x :: y :: ys) =
          x ++ '\n' :: joinWith [Char.ofNat 10] (y :: ys) := by
        rw [joinWith]
        rw [List.append_assoc]
        rfl
      rw [hj, splitLines_append _ _ hx, hrec]

theorem mem_joinWith (sep : List Char) (ls : List (List Char)) (c : Char)
    (hc : c ∈ joinWith sep ls) : c ∈ sep ∨ ∃ l ∈ ls, c ∈ l := by
  induction ls with
  | nil => simp [joinWith] at hc
  | cons x xs ih =>
    cases xs with
    | nil =>
      right
      exact ⟨x, by simp, hc⟩
    | cons y ys =>
      rw [joinWith] at hc
      rcases List.mem_append.mp hc with h1 | h1
      · rcases List.mem_append.mp h1 with h2 | h2
        · exact Or.inr ⟨x, by simp, h2⟩
        · exact Or.inl h2
      · rcases ih h1 with h2 | ⟨l, hl, hcl⟩
        · exact Or.inl h2
        · exact Or.inr ⟨l, by simp [List.mem_cons.mp hl], hcl⟩

theorem mem_escapeQuotes (s : List Char) (c : Char) (hc : c ∈ escapeQuotes s) :
    c = '"' ∨ c ∈ s := by
  induction s with
  | nil => simp [escapeQuotes] at hc
  | cons a as ih =>
    rw [escapeQuotes] at hc
    rcases List.mem_append.mp hc with h1 | h1
    · by_cases ha : a = '"'
      · rw [if_pos ha] at h1
        simp at h1
        exact Or.inl h1
      · rw [if_neg ha] at h1
        simp at h1
        exact Or.inr (by simp [h1])
    · rcases ih h1 with h2 | h2
      · exact Or.inl h2
      · exact Or.inr (by simp [h2])

theorem no_nl_quoteField (v : List Char) (hv : ('\n') ∉ v) :
    ('\n') ∉ quoteField v := by
  intro hmem
  rw [quoteField] at hmem
  rcases List.mem_cons.mp hmem with h1 | h1
  · exact absurd h1 (by decide)
  · rcases List.mem_append.mp h1 with h2 | h2
    · rcases mem_escapeQuotes v _ h2 with h3 | h3
      · exact absurd h3 (by decide)
      · exact hv h3
    · simp at h2

theorem no_nl_renderRow (columns : List (List Char)) (row : Row)
    (hv : ∀ col ∈ columns, ('\n') ∉ jsGet row col) :
    ('\n') ∉ renderRow columns row := by
  intro hmem
  rcases mem_joinWith _ _ _ hmem with h1 | ⟨l, hl, hcl⟩
  · simp at h1
  · rcases List.mem_map.mp hl with ⟨col, hcol, rfl⟩
    exact no_nl_quoteField _ (hv col hcol) hcl

theorem countChar_escapeQuotes (s : List Char) :
    countChar '"' (escapeQuotes s) = 2 * countChar '"' s := by
  induction s with
  | nil => rfl
  | cons a as ih =>
    rw [escapeQuotes]
    by_cases ha : a = '"'
    · rw [if_pos ha]
      unfold countChar at ih ⊢
      rw [List.countP_append, ih, List.countP_cons, ha]
      simp [List.countP_cons]
      omega
    · rw [if_neg ha]
      unfold countChar at ih ⊢
      rw [List.countP_append, ih, List.countP_cons]
      have hne : ((a == '"') : Bool) = false := by simpa using ha
      simp only [List.countP_cons, List.countP_nil, hne, Bool.false_eq_true, if_false]
      omega

/-- Claim C9 counterexample: the claim says the suggested filename is
the title with non-alphanumeric characters stripped; the source replaces
each such character with an underscore instead, so the two differ on the
actual panel title "Query Results (3 records)". -/
theorem csv_filename_cex :
    csvFilename (("Query Results (3 records)").toList) ≠
      specStrippedFilename (("Query Results (3 records)").toList) ∧
    specStrippedFilename (("Query Results (3 records)").toList) =
      (("QueryResults3records.csv").toList) ∧
    csvFilename (("Query Results (3 records)").toList) =
      (("Query_Results__3_records_.csv").toList) := by
  refine ⟨by decide, by decide, by decide⟩

/-- Claim C9 (amended): the exported CSV splits at newlines into the
header line — the comma-joined column names of the first row — followed
by exactly one rendered line per payload row (all rows, not the 50-row
display cap), every data field quoted with internal quote characters
doubled (quote count doubles under escaping); the suggested filename is
the title with every non-alphanumeric character replaced by an
underscore, followed by ".csv" (length grows by exactly 4, never
shrinks by stripping). -/
theorem csv_export_amended (data : List Row) (title : List Char)
    (hcols : ∀ col ∈ columnsOf data, ('\n') ∉ col)
    (hvals : ∀ row ∈ data, ∀ col ∈ columnsOf data, ('\n') ∉ jsGet row col) :
    splitLines (csvContent data) =
      joinWith [','] (columnsOf data) :: data.map (renderRow (columnsOf data)) ∧
    (splitLines (csvContent data)).length = data.length + 1 ∧
    (∀ s : List Char, countChar '"' (escapeQuotes s) = 2 * countChar '"' s) ∧
    csvFilename title =
      (title.map (fun c => if isAlnumAscii c then c else '_')) ++ ((".csv").toList) ∧
    (csvFilename title).length = title.length + 4 := by
  have hsplit : splitLines (csvContent data) =
      joinWith [','] (columnsOf data) :: data.map (renderRow (columnsOf data)) := by
    rw [csvContent]
    apply splitLines_joinWith
    · intro l hl
      rcases List.mem_cons.mp hl with rfl | hl
      · intro hmem
        rcases mem_joinWith _ _ _ hmem with h1 | ⟨col, hcol, hccl⟩
        · simp at h1
        · exact hcols col hcol hccl
      · rcases List.mem_map.mp hl with ⟨row, hrow, rfl⟩
        exact no_nl_renderRow _ row (fun col hcol => hvals row hrow col hcol)
    · simp
  refine ⟨hsplit, ?_, countChar_escapeQuotes, rfl, ?_⟩
  · rw [hsplit]
    simp
  · rw [csvFilename, List.length_append, List.length_map]
    rfl

/-- Witness for `csv_export_amended` on a concrete 2-row payload. -/
theorem csv_export_amended_witness :
    (∀ col ∈ columnsOf [[((("name").toList), (("a").toList))],
        [((("name").toList), (("b").toList))]], ('\n') ∉ col) ∧
    splitLines (csvContent [[((("name").toList), (("a").toList))],
        [((("name").toList), (("b").toList))]]) =
      joinWith [','] (columnsOf [[((("name").toList), (("a").toList))],
        [((("name").toList), (("b").toList))]]) ::
      ([[((("name").toList), (("a").toList))],
        [((("name").toList), (("b").toList))]] : List Row).map
        (renderRow (columnsOf [[((("name").toList), (("a").toList))],
          [((("name").toList), (("b").toList))]])) := by
  refine ⟨by decide, ?_⟩
  exact (csv_export_amended [[((("name").toList), (("a").toList))],
    [((("name").toList), (("b").toList))]] [] (by decide) (by decide)).1

end TuneBot
